import Mathlib

/-!
Verification of the FixItNow booking lifecycle core against its design
specification.  The repository ships only the database initialisation
script (`infrastructure/db/init.sql`), the architecture plan and the
README; the Booking Lifecycle Engine, Event Bus Adapter, Session
Registry and Session Relay are specified but their backend code is not
part of the sources, so those components are modelled here directly
from the specification text (each such definition is marked
`Modelled from the spec:`).  The SQL trigger `update_updated_at_column`
is real code and is embedded from `init.sql`.
-/

namespace FixItNow

/-- Modelled from the spec: booking status, §3 / init.sql comment
"Estado: pending, accepted, in_progress, completed, cancelled". -/
inductive Status
  | pending
  | accepted
  | inProgress
  | completed
  | cancelled
deriving DecidableEq, Repr

/-- Modelled from the spec: the four named transitions of §4.1. -/
inductive Transition
  | accept
  | start
  | complete
  | cancel
deriving DecidableEq, Repr

/-- Modelled from the spec: actor roles for role-gated transitions (§4.1). -/
inductive Role
  | requester
  | provider
deriving DecidableEq, Repr

/-- Modelled from the spec: the transition graph of §4.1.
`nextStatus s t = some s'` exactly when `s --t--> s'` is an edge. -/
def nextStatus : Status → Transition → Option Status
  | .pending, .accept => some .accepted
  | .pending, .cancel => some .cancelled
  | .accepted, .start => some .inProgress
  | .accepted, .cancel => some .cancelled
  | .inProgress, .complete => some .completed
  | .inProgress, .cancel => some .cancelled
  | _, _ => none

/-- Modelled from the spec: the static permission table
{transition → allowed role(s)} of §4.1/§9. -/
def roleAllowed : Transition → Role → Bool
  | .accept, .provider => true
  | .start, .provider => true
  | .complete, .provider => true
  | .cancel, _ => true
  | _, _ => false

/-- Modelled from the spec: terminal states, §4.1. -/
def isTerminal : Status → Bool
  | .completed => true
  | .cancelled => true
  | _ => false

/-- Modelled from the spec: the Booking record of §3 (identity and party
ids immutable after creation; status, version and timestamps mutable). -/
structure Booking where
  id : Nat
  requesterId : Nat
  providerId : Nat
  serviceRef : Nat
  scheduledTime : Nat
  address : String
  estimatedPrice : Nat
  status : Status
  version : Nat
  createdAt : Nat
  acceptedAt : Option Nat
  completedAt : Option Nat
deriving DecidableEq, Repr

/-- Modelled from the spec: the actor check of §4.1 — the actor id must
be the booking participant holding the claimed role. -/
def actorMatches (b : Booking) (actorId : Nat) (role : Role) : Bool :=
  match role with
  | .requester => actorId == b.requesterId
  | .provider => actorId == b.providerId

/-- Modelled from the spec: a call is permitted when the role is allowed
for the transition and the actor really is that participant (§4.1). -/
def permitted (b : Booking) (t : Transition) (actorId : Nat) (role : Role) : Bool :=
  roleAllowed t role && actorMatches b actorId role

/-- Modelled from the spec: the Booking Store (§4.2) — durable keyed
storage, modelled as a list of records keyed by `Booking.id`. -/
abbrev Store := List Booking

/-- Modelled from the spec: `get(id) -> snapshot|NotFound` (§4.2). -/
def storeGet : Store → Nat → Option Booking
  | [], _ => none
  | x :: xs, id => if x.id = id then some x else storeGet xs id

/-- Replace the record whose id matches `b.id` by `b`. -/
def storePut (s : Store) (b : Booking) : Store :=
  s.map (fun x => if x.id = b.id then b else x)

/-- Modelled from the spec: store-level failures of §4.2. -/
inductive StoreError
  | notFound
  | versionConflict
deriving DecidableEq, Repr

/-- Modelled from the spec:
`conditionalUpdate(id, expectedVersion, mutator) -> newSnapshot|VersionConflict|NotFound`
(§4.2); the compare-and-swap is atomic, modelled as one pure step. -/
def conditionalUpdate (s : Store) (id : Nat) (expectedVersion : Nat)
    (mutator : Booking → Booking) : Except StoreError (Store × Booking) :=
  match storeGet s id with
  | none => .error .notFound
  | some b =>
    if expectedVersion = b.version then
      let b' := mutator b
      .ok (storePut s b', b')
    else
      .error .versionConflict

/-- Modelled from the spec: the error taxonomy of §7 relevant to
`applyTransition` and the bus (`TransientFailure` is bus-internal and
must never be surfaced to the transition caller). -/
inductive EngineError
  | notFound
  | forbidden
  | versionConflict
  | invalidTransition
  | transientFailure
deriving DecidableEq, Repr

/-- Modelled from the spec: the successful-write mutator of §4.1 — set
the new status, set the relevant timestamp (accepted on `accept`,
completed on `complete`), increment the version. -/
def mutate (t : Transition) (target : Status) (now : Nat) (b : Booking) : Booking :=
  { b with
    status := target
    version := b.version + 1
    acceptedAt := if t = .accept then some now else b.acceptedAt
    completedAt := if t = .complete then some now else b.completedAt }

/-- Modelled from the spec: `applyTransition` (§4.1).  Failure checks in
the order the contract lists them: NotFound, Forbidden, VersionConflict,
InvalidTransition; on success the single conditional write of §4.2
commits the mutated record. -/
def applyTransition (s : Store) (bookingId : Nat) (t : Transition)
    (actorId : Nat) (role : Role) (expectedVersion : Nat) (now : Nat) :
    Except EngineError (Store × Booking) :=
  match storeGet s bookingId with
  | none => .error .notFound
  | some b =>
    if permitted b t actorId role then
      if expectedVersion = b.version then
        match nextStatus b.status t with
        | none => .error .invalidTransition
        | some target =>
          match conditionalUpdate s bookingId expectedVersion (mutate t target now) with
          | .ok (s', b') => .ok (s', b')
          | .error .versionConflict => .error .versionConflict
          | .error .notFound => .error .notFound
      else
        .error .versionConflict
    else
      .error .forbidden

/-- Modelled from the spec: booking creation (§3) — status Pending,
version 0, created timestamp set, accepted/completed null. -/
def createBooking (id requesterId providerId serviceRef scheduledTime : Nat)
    (address : String) (estimatedPrice now : Nat) : Booking :=
  { id := id
    requesterId := requesterId
    providerId := providerId
    serviceRef := serviceRef
    scheduledTime := scheduledTime
    address := address
    estimatedPrice := estimatedPrice
    status := .pending
    version := 0
    createdAt := now
    acceptedAt := none
    completedAt := none }

/-- Modelled from the spec: event topic for each transition (§6
"Event topic naming"). -/
def topicOf : Transition → String
  | .accept => "booking.accepted"
  | .start => "booking.in_progress"
  | .complete => "booking.completed"
  | .cancel => "booking.cancelled"

/-- Modelled from the spec: the five event topics of §6. -/
def allTopics : List String :=
  ["booking.pending", "booking.accepted", "booking.in_progress",
   "booking.completed", "booking.cancelled"]

/-- Modelled from the spec: the immutable Event record of §3 — type
(topic), booking id, payload snapshot plus {transition, actorId},
emission time, delivery attempt count. -/
structure Event where
  topic : String
  bookingId : Nat
  snapshot : Booking
  transition : Transition
  actorId : Nat
  emissionTime : Nat
  attempts : Nat
deriving DecidableEq, Repr

/-- Modelled from the spec: the Event Bus Adapter state (§4.3) —
delivered events, events awaiting retry after a `TransientFailure`, and
the dead-letter sink. -/
structure BusState where
  delivered : List Event
  retrying : List Event
  deadLetter : List Event
deriving DecidableEq, Repr

/-- Modelled from the spec: `publish(event) -> ack|TransientFailure`
(§4.3).  `ok` is whether this delivery attempt succeeds; on failure the
adapter keeps the event for its own retry, never reporting back. -/
def publish (bus : BusState) (e : Event) (ok : Bool) : BusState :=
  if ok then
    { bus with delivered := bus.delivered ++ [e] }
  else
    { bus with retrying := bus.retrying ++ [e] }

/-- Every event the bus still owns (delivered or awaiting retry). -/
def enqueued (bus : BusState) : List Event :=
  bus.delivered ++ bus.retrying

/-- Modelled from the spec: the event built after a successful
transition — type `booking.<transition>` with the full new snapshot as
payload plus {transition, actorId} (§4.1, §6). -/
def mkEvent (t : Transition) (actorId : Nat) (b' : Booking) (now : Nat) : Event :=
  { topic := topicOf t
    bookingId := b'.id
    snapshot := b'
    transition := t
    actorId := actorId
    emissionTime := now
    attempts := 0 }

/-- Modelled from the spec: one full engine step (§4.1, §5): the
conditional write commits first; only then is exactly one event handed
to the bus.  `publishOk` is whether the immediate publish attempt
succeeds; either way the committed store stands and the caller sees the
new snapshot — `TransientFailure` never reaches the caller. -/
def engineStep (s : Store) (bus : BusState) (bookingId : Nat) (t : Transition)
    (actorId : Nat) (role : Role) (expectedVersion : Nat) (now : Nat)
    (publishOk : Bool) :
    Except EngineError Booking × Store × BusState :=
  match applyTransition s bookingId t actorId role expectedVersion now with
  | .error e => (.error e, s, bus)
  | .ok (s', b') => (.ok b', s', publish bus (mkEvent t actorId b' now) publishOk)

/-- Modelled from the spec: the ephemeral Session record of §3. -/
structure Session where
  bookingId : Nat
  requesterId : Nat
  providerId : Nat
  isOpen : Bool
  createdAt : Nat
deriving DecidableEq, Repr

/-- Modelled from the spec: Session Registry state — the sessions it
currently tracks, keyed by booking id (§4.4). -/
abbrev Registry := List Session

/-- Modelled from the spec: session-layer failures of §4.4. -/
inductive SessionError
  | ineligible
  | alreadyOpen
deriving DecidableEq, Repr

/-- The session tracked for a booking id, if any. -/
def sessionFor : Registry → Nat → Option Session
  | [], _ => none
  | sess :: rest, id => if sess.bookingId = id then some sess else sessionFor rest id

/-- Modelled from the spec: eligibility — current booking status must be
Accepted or InProgress (§4.4). -/
def eligibleStatus : Status → Bool
  | .accepted => true
  | .inProgress => true
  | _ => false

/-- Modelled from the spec:
`open(bookingId, requesterId, providerId) -> SessionHandle|AlreadyOpen|Ineligible`
(§4.4): the booking status is read fresh from the store; a booking in
Pending, Completed or Cancelled state (or an unknown one) is
`Ineligible`; an existing session for the id is `AlreadyOpen`. -/
def openSession (s : Store) (reg : Registry)
    (bookingId requesterId providerId now : Nat) :
    Except SessionError (Registry × Session) :=
  match storeGet s bookingId with
  | none => .error .ineligible
  | some b =>
    if eligibleStatus b.status then
      match sessionFor reg bookingId with
      | some _ => .error .alreadyOpen
      | none =>
        let sess : Session :=
          { bookingId := bookingId, requesterId := requesterId,
            providerId := providerId, isOpen := true, createdAt := now }
        .ok (sess :: reg, sess)
    else
      .error .ineligible

/-- Modelled from the spec: the Session Relay's bounded buffer for a
disconnected counterpart (§4.5) — append the new message, and discard
the oldest entries beyond the bound. -/
def bufferPush (bound : Nat) (buf : List Nat) (m : Nat) : List Nat :=
  if bound < (buf ++ [m]).length then
    (buf ++ [m]).drop ((buf ++ [m]).length - bound)
  else
    buf ++ [m]

/-- Modelled from the spec: the buffer contents after one sender sends
`msgs` in order while the counterpart is disconnected (§4.5). -/
def relayBuffer (bound : Nat) (msgs : List Nat) : List Nat :=
  msgs.foldl (bufferPush bound) []

/-- Modelled from the spec: on reconnect the counterpart receives the
buffered messages in per-sender send order (§4.5). -/
def deliverOnReconnect (bound : Nat) (msgs : List Nat) : List Nat :=
  relayBuffer bound msgs

/-- A row of the `bookings` table as created by `init.sql` (the columns
of the INSERT at init.sql:34). -/
structure BookingsRow where
  user_id : Nat
  provider_id : Nat
  service_id : Nat
  title : String
  description : String
  status : String
  scheduled_date : Int
  address : String
  estimated_price : Nat
  final_price : Option Nat
  created_at : Int
  updated_at : Int
  accepted_at : Option Int
  completed_at : Option Int
deriving DecidableEq, Repr

/-- A row of the `users` table (columns of the INSERT at init.sql:14). -/
structure UsersRow where
  email : String
  full_name : String
  password_hash : String
  role : String
  phone : String
  address : String
  is_active : Bool
  created_at : Int
  updated_at : Int
deriving DecidableEq, Repr

/-- A row of the `services` table (columns of the INSERT at init.sql:24). -/
structure ServicesRow where
  provider_id : Nat
  name : String
  description : String
  category : String
  base_price : Nat
  price_unit : String
  is_active : Bool
  rating : Nat
  total_reviews : Nat
  created_at : Int
  updated_at : Int
deriving DecidableEq, Repr

/-- The trigger function `update_updated_at_column()` of init.sql:64-70:
a BEFORE UPDATE row trigger that overwrites `NEW.updated_at` with
`NOW()` before the row is stored, for the `bookings` table
(trigger `update_bookings_updated_at`, init.sql:81-83).  `upd` is the
SET clause of the UPDATE statement producing the candidate NEW row. -/
def triggeredUpdateBookings (now : Int) (upd : BookingsRow → BookingsRow)
    (old : BookingsRow) : BookingsRow :=
  { upd old with updated_at := now }

/-- The same trigger attached to `users`
(trigger `update_users_updated_at`, init.sql:73-75). -/
def triggeredUpdateUsers (now : Int) (upd : UsersRow → UsersRow)
    (old : UsersRow) : UsersRow :=
  { upd old with updated_at := now }

/-- The same trigger attached to `services`
(trigger `update_services_updated_at`, init.sql:77-79). -/
def triggeredUpdateServices (now : Int) (upd : ServicesRow → ServicesRow)
    (old : ServicesRow) : ServicesRow :=
  { upd old with updated_at := now }

/-! ### Concrete fixtures (mirroring the sample booking of init.sql:39:
requester 5, provider 3, pending) used to instantiate the theorems -/

/-- A freshly created booking: Pending, version 0. -/
def wBooking : Booking := createBooking 1 5 3 4 30 "Carrasco, Montevideo" 150 0

/-- A one-booking store. -/
def wStore : Store := [wBooking]

/-- An empty bus. -/
def wBus : BusState := { delivered := [], retrying := [], deadLetter := [] }

/-- The booking after the provider accepted at time 1. -/
def wAcc : Booking := mutate .accept .accepted 1 wBooking

/-- The store after the accept committed. -/
def wStoreAcc : Store := storePut wStore wAcc

/-- The booking after the requester cancelled (from Pending) at time 2. -/
def wCanc : Booking := mutate .cancel .cancelled 2 wBooking

/-- The store after that cancel committed. -/
def wStoreCanc : Store := storePut wStore wCanc

/-- A terminal (Completed) booking at version 3. -/
def wDone : Booking :=
  { wBooking with
    status := .completed
    version := 3
    acceptedAt := some 1
    completedAt := some 2 }

/-- A one-booking store holding the terminal booking. -/
def wStoreDone : Store := [wDone]

/-- The timestamp alignment exactly as claim C7 states it (spec §3):
accepted timestamp set iff status ∈ {Accepted, InProgress, Completed};
completed timestamp set iff status = Completed. -/
def tsAligned (b : Booking) : Prop :=
  (b.acceptedAt ≠ none ↔
    (b.status = .accepted ∨ b.status = .inProgress ∨ b.status = .completed))
  ∧ (b.completedAt ≠ none ↔ b.status = .completed)

/-- The amended timestamp invariant: the accepted timestamp is set
whenever the status is Accepted, InProgress or Completed and is null
while the booking is Pending (a booking cancelled after acceptance keeps
it); the completed timestamp is set iff the status is Completed. -/
def tsInvariant (b : Booking) : Prop :=
  ((b.status = .accepted ∨ b.status = .inProgress ∨ b.status = .completed) →
    b.acceptedAt ≠ none)
  ∧ (b.acceptedAt ≠ none → b.status ≠ .pending)
  ∧ (b.completedAt ≠ none ↔ b.status = .completed)

/-- The booking after accept (time 1) and then cancel (time 2). -/
def wAccCanc : Booking := mutate .cancel .cancelled 2 wAcc

/-- A registry already holding a session for the fixture booking. -/
def wReg : Registry :=
  [{ bookingId := 1, requesterId := 5, providerId := 3, isOpen := true,
     createdAt := 3 }]

/-- Apply a sequence of UPDATEs (each a SET clause with its commit time)
to a bookings row, the trigger firing on each. -/
def applyBookingUpdates (r : BookingsRow) :
    List (Int × (BookingsRow → BookingsRow)) → BookingsRow
  | [] => r
  | (now, upd) :: rest => applyBookingUpdates (triggeredUpdateBookings now upd r) rest

/-! ### Lemmas about the store, the engine, the relay and the trigger -/

lemma storeGet_id {s : Store} {id : Nat} {b : Booking}
    (h : storeGet s id = some b) : b.id = id := by
  induction s with
  | nil => simp [storeGet] at h
  | cons x xs ih =>
    by_cases hx : x.id = id
    · simp [storeGet, hx] at h
      subst h
      exact hx
    · simp [storeGet, hx] at h
      exact ih h

lemma storeGet_storePut {s : Store} {id : Nat} {b b' : Booking}
    (h : storeGet s id = some b) (hid : b'.id = b.id) :
    storeGet (storePut s b') id = some b' := by
  have hbid : b.id = id := storeGet_id h
  induction s with
  | nil => simp [storeGet] at h
  | cons x xs ih =>
    by_cases hx : x.id = id
    · have hxb : x = b := by simpa [storeGet, hx] using h
      subst hxb
      simp [storePut, storeGet, hid, hbid]
    · have hxne : ¬ x.id = b'.id := by omega
      have h' : storeGet xs id = some b := by simpa [storeGet, hx] using h
      simpa [storePut, storeGet, hxne, hx] using ih h'

lemma conditionalUpdate_ok {s : Store} {id : Nat} {b : Booking}
    (m : Booking → Booking) (h : storeGet s id = some b) :
    conditionalUpdate s id b.version m = .ok (storePut s (m b), m b) := by
  simp [conditionalUpdate, h]

lemma applyTransition_ok_of {s : Store} {id : Nat} {b : Booking} {t : Transition}
    {a : Nat} {r : Role} {target : Status} (now : Nat)
    (hb : storeGet s id = some b) (hp : permitted b t a r = true)
    (ht : nextStatus b.status t = some target) :
    applyTransition s id t a r b.version now =
      .ok (storePut s (mutate t target now b), mutate t target now b) := by
  simp [applyTransition, hb, hp, ht, conditionalUpdate_ok]

lemma applyTransition_notFound {s : Store} {id : Nat} {t : Transition}
    {a : Nat} {r : Role} {v now : Nat} (hb : storeGet s id = none) :
    applyTransition s id t a r v now = .error .notFound := by
  simp [applyTransition, hb]

lemma applyTransition_forbidden {s : Store} {id : Nat} {b : Booking}
    {t : Transition} {a : Nat} {r : Role} {v now : Nat}
    (hb : storeGet s id = some b) (hp : permitted b t a r = false) :
    applyTransition s id t a r v now = .error .forbidden := by
  simp [applyTransition, hb, hp]

lemma applyTransition_versionConflict {s : Store} {id : Nat} {b : Booking}
    {t : Transition} {a : Nat} {r : Role} {v : Nat} (now : Nat)
    (hb : storeGet s id = some b) (hp : permitted b t a r = true)
    (hv : v ≠ b.version) :
    applyTransition s id t a r v now = .error .versionConflict := by
  simp [applyTransition, hb, hp, hv]

lemma applyTransition_invalidTransition {s : Store} {id : Nat} {b : Booking}
    {t : Transition} {a : Nat} {r : Role} (now : Nat)
    (hb : storeGet s id = some b) (hp : permitted b t a r = true)
    (ht : nextStatus b.status t = none) :
    applyTransition s id t a r b.version now = .error .invalidTransition := by
  simp [applyTransition, hb, hp, ht]

lemma applyTransition_ok_found {s s' : Store} {id : Nat} {t : Transition}
    {a : Nat} {r : Role} {v now : Nat} {b' : Booking}
    (h : applyTransition s id t a r v now = .ok (s', b')) :
    ∃ b, storeGet s id = some b := by
  cases hb : storeGet s id with
  | none => simp [applyTransition, hb] at h
  | some b => exact ⟨b, rfl⟩

lemma applyTransition_ok_inv {s s' : Store} {id : Nat} {t : Transition}
    {a : Nat} {r : Role} {v now : Nat} {b b' : Booking}
    (hb : storeGet s id = some b)
    (h : applyTransition s id t a r v now = .ok (s', b')) :
    permitted b t a r = true ∧ v = b.version ∧
      ∃ target, nextStatus b.status t = some target ∧
        b' = mutate t target now b ∧ s' = storePut s b' := by
  by_cases hp : permitted b t a r = true
  · by_cases hv : v = b.version
    · subst hv
      cases ht : nextStatus b.status t with
      | none =>
        rw [applyTransition_invalidTransition now hb hp ht] at h
        exact absurd h (by simp)
      | some target =>
        rw [applyTransition_ok_of now hb hp ht] at h
        have h' : (storePut s (mutate t target now b), mutate t target now b)
            = (s', b') := Except.ok.inj h
        have hs : storePut s (mutate t target now b) = s' := congrArg Prod.fst h'
        have hbb : mutate t target now b = b' := congrArg Prod.snd h'
        exact ⟨hp, rfl, target, ht ▸ rfl, hbb.symm, by rw [← hs, hbb]⟩
    · rw [applyTransition_versionConflict now hb hp hv] at h
      exact absurd h (by simp)
  · have hp' : permitted b t a r = false := by
      cases hpc : permitted b t a r
      · rfl
      · exact absurd hpc hp
    rw [applyTransition_forbidden hb hp'] at h
    exact absurd h (by simp)

lemma nextStatus_terminal {st : Status} (t : Transition)
    (h : st = .completed ∨ st = .cancelled) : nextStatus st t = none := by
  rcases h with h | h <;> subst h <;> cases t <;> rfl

lemma permitted_mutate (t : Transition) (target : Status) (now : Nat)
    (b : Booking) (t' : Transition) (a : Nat) (r : Role) :
    permitted (mutate t target now b) t' a r = permitted b t' a r := by
  cases r <;> rfl

lemma applyTransition_ne_transient (s : Store) (id : Nat) (t : Transition)
    (a : Nat) (r : Role) (v now : Nat) :
    applyTransition s id t a r v now ≠ .error .transientFailure := by
  intro h
  cases hb : storeGet s id with
  | none =>
    rw [applyTransition_notFound hb] at h
    simp at h
  | some b =>
    by_cases hp : permitted b t a r = true
    · by_cases hv : v = b.version
      · subst hv
        cases ht : nextStatus b.status t with
        | none =>
          rw [applyTransition_invalidTransition now hb hp ht] at h
          simp at h
        | some target =>
          rw [applyTransition_ok_of now hb hp ht] at h
          simp at h
      · rw [applyTransition_versionConflict now hb hp hv] at h
        simp at h
    · have hp' : permitted b t a r = false := by
        cases hpc : permitted b t a r
        · rfl
        · exact absurd hpc hp
      rw [applyTransition_forbidden hb hp'] at h
      simp at h

lemma eligibleStatus_iff (st : Status) :
    eligibleStatus st = true ↔ (st = .accepted ∨ st = .inProgress) := by
  cases st <;> simp [eligibleStatus]

lemma bufferPush_eq_drop (bound : Nat) (buf : List Nat) (m : Nat) :
    bufferPush bound buf m = (buf ++ [m]).drop ((buf ++ [m]).length - bound) := by
  unfold bufferPush
  by_cases hlt : bound < (buf ++ [m]).length
  · rw [if_pos hlt]
  · rw [if_neg hlt, Nat.sub_eq_zero_of_le (Nat.le_of_not_lt hlt), List.drop_zero]

lemma foldl_bufferPush (bound : Nat) (msgs : List Nat) :
    ∀ buf : List Nat, buf.length ≤ bound →
      List.foldl (bufferPush bound) buf msgs
        = (buf ++ msgs).drop ((buf ++ msgs).length - bound) := by
  induction msgs with
  | nil =>
    intro buf hb
    simp [Nat.sub_eq_zero_of_le hb]
  | cons m rest ih =>
    intro buf hb
    rw [List.foldl_cons, bufferPush_eq_drop]
    have hk : (buf ++ [m]).length - bound ≤ (buf ++ [m]).length := Nat.sub_le _ _
    have hlen : ((buf ++ [m]).drop ((buf ++ [m]).length - bound)).length ≤ bound := by
      simp [List.length_drop]
      omega
    rw [ih _ hlen, ← List.drop_append_of_le_length hk, List.drop_drop,
      List.append_assoc, List.singleton_append]
    congr 1
    simp [List.length_drop, List.length_append]
    omega

lemma applyBookingUpdates_append (us vs : List (Int × (BookingsRow → BookingsRow))) :
    ∀ r, applyBookingUpdates r (us ++ vs)
      = applyBookingUpdates (applyBookingUpdates r us) vs := by
  induction us with
  | nil => intro r; rfl
  | cons u rest ih =>
    intro r
    cases u with
    | mk now upd => simp [applyBookingUpdates, ih]

/-! ### Claim theorems, counterexamples and witnesses -/

/-- C1: for a stored booking, every successful `applyTransition` moves the
status along an edge of the §4.1 graph; for a booking in a terminal state
(Completed or Cancelled) no call ever succeeds, and a call with a
permitted actor and the matching expectedVersion fails with
`InvalidTransition`; every failing call leaves the stored booking
unchanged. -/
theorem claim_C1_transitions_follow_graph
    (s : Store) (bus : BusState) (id : Nat) (t : Transition) (a : Nat)
    (r : Role) (v now : Nat) (pubOk : Bool) (b : Booking)
    (hb : storeGet s id = some b) :
    (∀ s' b', applyTransition s id t a r v now = .ok (s', b') →
      nextStatus b.status t = some b'.status)
    ∧ ((b.status = .completed ∨ b.status = .cancelled) →
        (∀ s' b', applyTransition s id t a r v now ≠ .ok (s', b'))
        ∧ (permitted b t a r = true → v = b.version →
            applyTransition s id t a r v now = .error .invalidTransition))
    ∧ (∀ e, applyTransition s id t a r v now = .error e →
        (engineStep s bus id t a r v now pubOk).2.1 = s
        ∧ storeGet (engineStep s bus id t a r v now pubOk).2.1 id = some b) := by
  refine ⟨?_, ?_, ?_⟩
  · intro s' b' h
    obtain ⟨hp, hv, target, ht, hb', _⟩ := applyTransition_ok_inv hb h
    rw [hb']
    simpa [mutate] using ht
  · intro hterm
    constructor
    · intro s' b' h
      obtain ⟨_, _, target, ht, _, _⟩ := applyTransition_ok_inv hb h
      rw [nextStatus_terminal t hterm] at ht
      exact absurd ht (by simp)
    · intro hp hv
      subst hv
      exact applyTransition_invalidTransition now hb hp (nextStatus_terminal t hterm)
  · intro e h
    simp only [engineStep, h]
    exact ⟨trivial, hb⟩

/-- Witness for C1 at the terminal fixture booking. -/
theorem claim_C1_witness :
    applyTransition wStoreDone 1 .complete 3 .provider 3 9 = .error .invalidTransition
    ∧ storeGet (engineStep wStoreDone wBus 1 .complete 3 .provider 3 9 true).2.1 1
        = some wDone := by
  have h := claim_C1_transitions_follow_graph wStoreDone wBus 1 .complete 3 .provider
    3 9 true wDone (by rfl)
  have hterm := h.2.1 (Or.inl (by rfl))
  have hfail := hterm.2 (by rfl) (by rfl)
  exact ⟨hfail, (h.2.2 .invalidTransition hfail).2⟩

/-- C2: a successful `applyTransition` performs the single conditional
write: the status moves along the graph edge, the relevant timestamp is
set (accepted on `accept`, completed on `complete`, others untouched),
the stored version grows by exactly 1, the immutable fields are kept,
and the returned snapshot is exactly the newly stored record. -/
theorem claim_C2_success_effects
    (s s' : Store) (id : Nat) (t : Transition) (a : Nat) (r : Role)
    (v now : Nat) (b b' : Booking)
    (hb : storeGet s id = some b)
    (h : applyTransition s id t a r v now = .ok (s', b')) :
    nextStatus b.status t = some b'.status
    ∧ b'.version = b.version + 1
    ∧ v = b.version
    ∧ b'.acceptedAt = (if t = .accept then some now else b.acceptedAt)
    ∧ b'.completedAt = (if t = .complete then some now else b.completedAt)
    ∧ b'.id = b.id ∧ b'.requesterId = b.requesterId ∧ b'.providerId = b.providerId
    ∧ storeGet s' id = some b' := by
  obtain ⟨hp, hv, target, ht, hb', hs'⟩ := applyTransition_ok_inv hb h
  subst hb'
  subst hs'
  refine ⟨by simpa [mutate] using ht, by simp [mutate], hv, by simp [mutate],
    by simp [mutate], by simp [mutate], by simp [mutate], by simp [mutate], ?_⟩
  exact storeGet_storePut hb (by simp [mutate])

/-- Witness for C2: accepting the Pending fixture booking. -/
theorem claim_C2_witness :
    nextStatus wBooking.status .accept = some wAcc.status
    ∧ wAcc.version = wBooking.version + 1
    ∧ storeGet wStoreAcc 1 = some wAcc := by
  have h := claim_C2_success_effects wStore wStoreAcc 1 .accept 3 .provider 0 1
    wBooking wAcc (by rfl) (by rfl)
  exact ⟨h.1, h.2.1, h.2.2.2.2.2.2.2.2⟩

/-- C3: an `applyTransition` call on a stored booking by a permitted
actor whose expectedVersion differs from the stored version fails with
`VersionConflict`, and the stored record is unchanged. -/
theorem claim_C3_version_conflict
    (s : Store) (bus : BusState) (id : Nat) (t : Transition) (a : Nat)
    (r : Role) (v now : Nat) (pubOk : Bool) (b : Booking)
    (hb : storeGet s id = some b) (hp : permitted b t a r = true)
    (hv : v ≠ b.version) :
    applyTransition s id t a r v now = .error .versionConflict
    ∧ (engineStep s bus id t a r v now pubOk).2.1 = s
    ∧ storeGet (engineStep s bus id t a r v now pubOk).2.1 id = some b := by
  have hfail := applyTransition_versionConflict now hb hp hv
  constructor
  · exact hfail
  · simp only [engineStep, hfail]
    exact ⟨trivial, hb⟩

/-- Witness for C3: a stale expectedVersion 7 against stored version 0. -/
theorem claim_C3_witness :
    applyTransition wStore 1 .accept 3 .provider 7 1 = .error .versionConflict
    ∧ storeGet (engineStep wStore wBus 1 .accept 3 .provider 7 1 true).2.1 1
        = some wBooking := by
  have h := claim_C3_version_conflict wStore wBus 1 .accept 3 .provider 7 1 true
    wBooking (by rfl) (by rfl) (by decide)
  exact ⟨h.1, h.2.2⟩

/-- C4: two `applyTransition` calls carrying the same expectedVersion,
serialized at the atomic conditional write (the sole serialization
point, §5): if each call would succeed against the current store, then
in either serialization order the first succeeds and the second fails
with `VersionConflict`; and in no order can both succeed. -/
theorem claim_C4_concurrent_same_version
    (s : Store) (id : Nat) (t1 t2 : Transition) (a1 a2 : Nat)
    (r1 r2 : Role) (v n1 n2 : Nat) :
    (∀ s1 b1 s2 b2,
      applyTransition s id t1 a1 r1 v n1 = .ok (s1, b1) →
      applyTransition s id t2 a2 r2 v n2 = .ok (s2, b2) →
      applyTransition s1 id t2 a2 r2 v n2 = .error .versionConflict
      ∧ applyTransition s2 id t1 a1 r1 v n1 = .error .versionConflict)
    ∧ (∀ s1 b1 s2 b2,
      applyTransition s id t1 a1 r1 v n1 = .ok (s1, b1) →
      applyTransition s1 id t2 a2 r2 v n2 ≠ .ok (s2, b2)) := by
  have loser : ∀ (ta tb : Transition) (aa ab : Nat) (ra rb : Role) (na nb : Nat)
      (sa ba sb bb : _),
      applyTransition s id ta aa ra v na = .ok (sa, ba) →
      applyTransition s id tb ab rb v nb = .ok (sb, bb) →
      applyTransition sa id tb ab rb v nb = .error .versionConflict := by
    intro ta tb aa ab ra rb na nb sa ba sb bb ha hbk
    obtain ⟨b, hb⟩ := applyTransition_ok_found ha
    obtain ⟨hpa, hva, tga, hta, hba, hsa⟩ := applyTransition_ok_inv hb ha
    obtain ⟨hpb, _, _, _, _, _⟩ := applyTransition_ok_inv hb hbk
    have hget : storeGet sa id = some ba := by
      rw [hsa, hba]
      exact storeGet_storePut hb (by simp [mutate])
    have hperm : permitted ba tb ab rb = true := by
      rw [hba, permitted_mutate]
      exact hpb
    have hvne : v ≠ ba.version := by
      rw [hba]
      simp only [mutate]
      omega
    exact applyTransition_versionConflict nb hget hperm hvne
  constructor
  · intro s1 b1 s2 b2 h1 h2
    exact ⟨loser t1 t2 a1 a2 r1 r2 n1 n2 s1 b1 s2 b2 h1 h2,
      loser t2 t1 a2 a1 r2 r1 n2 n1 s2 b2 s1 b1 h2 h1⟩
  · intro s1 b1 s2 b2 h1 h2
    obtain ⟨b, hb⟩ := applyTransition_ok_found h1
    obtain ⟨_, hv1, tg1, _, hb1, hs1⟩ := applyTransition_ok_inv hb h1
    have hget : storeGet s1 id = some b1 := by
      rw [hs1, hb1]
      exact storeGet_storePut hb (by simp [mutate])
    obtain ⟨_, hv2, _, _, _, _⟩ := applyTransition_ok_inv hget h2
    rw [hb1] at hv2
    simp only [mutate] at hv2
    omega

/-- Witness for C4: the accept/cancel race on the Pending fixture, both
with expectedVersion 0 — each order leaves the loser with
`VersionConflict`. -/
theorem claim_C4_witness :
    applyTransition wStoreAcc 1 .cancel 5 .requester 0 2 = .error .versionConflict
    ∧ applyTransition wStoreCanc 1 .accept 3 .provider 0 1 = .error .versionConflict := by
  have h := (claim_C4_concurrent_same_version wStore 1 .accept .cancel 3 5
    .provider .requester 0 1 2).1 wStoreAcc wAcc wStoreCanc wCanc (by rfl) (by rfl)
  exact h

/-- C5: once the conditional write has committed, the engine enqueues
exactly one event to the bus; a failed publish attempt leaves the event
with the bus for retry, the committed store stands either way, the
caller still receives the new snapshot, and `TransientFailure` is never
surfaced to any transition caller; without a commit no event is ever
enqueued. -/
theorem claim_C5_commit_then_publish
    (s s' : Store) (bus : BusState) (id : Nat) (t : Transition) (a : Nat)
    (r : Role) (v now : Nat) (b' : Booking)
    (h : applyTransition s id t a r v now = .ok (s', b')) :
    (∀ pubOk,
      (engineStep s bus id t a r v now pubOk).1 = .ok b'
      ∧ (engineStep s bus id t a r v now pubOk).2.1 = s'
      ∧ List.Perm (enqueued (engineStep s bus id t a r v now pubOk).2.2)
          (enqueued bus ++ [mkEvent t a b' now]))
    ∧ (engineStep s bus id t a r v now false).2.2.delivered = bus.delivered
    ∧ (engineStep s bus id t a r v now false).2.2.retrying
        = bus.retrying ++ [mkEvent t a b' now]
    ∧ (∀ (s0 : Store) (bus0 : BusState) (id0 : Nat) (t0 : Transition)
        (a0 : Nat) (r0 : Role) (v0 now0 : Nat) (pubOk0 : Bool) (e0 : EngineError),
        (engineStep s0 bus0 id0 t0 a0 r0 v0 now0 pubOk0).1 = .error e0 →
        e0 ≠ .transientFailure
        ∧ (engineStep s0 bus0 id0 t0 a0 r0 v0 now0 pubOk0).2.2 = bus0) := by
  refine ⟨?_, ?_, ?_, ?_⟩
  · intro pubOk
    cases pubOk with
    | false => simp [engineStep, h, publish, enqueued, List.append_assoc]
    | true =>
      refine ⟨by simp [engineStep, h], by simp [engineStep, h], ?_⟩
      simp only [engineStep, publish, h, enqueued, if_pos]
      rw [List.append_assoc, List.append_assoc]
      exact List.Perm.append_left _ List.perm_append_comm
  · simp [engineStep, h, publish]
  · simp [engineStep, h, publish]
  · intro s0 bus0 id0 t0 a0 r0 v0 now0 pubOk0 e0 h0
    cases ha : applyTransition s0 id0 t0 a0 r0 v0 now0 with
    | error e =>
      simp only [engineStep, ha] at h0
      have he : e = e0 := Except.error.inj h0
      subst he
      refine ⟨?_, by simp [engineStep, ha]⟩
      intro hcontra
      subst hcontra
      exact applyTransition_ne_transient s0 id0 t0 a0 r0 v0 now0 ha
    | ok p =>
      simp [engineStep, ha] at h0

/-- Witness for C5 at the accept of the Pending fixture with a failing
publish attempt. -/
theorem claim_C5_witness :
    (engineStep wStore wBus 1 .accept 3 .provider 0 1 false).2.1 = wStoreAcc
    ∧ (engineStep wStore wBus 1 .accept 3 .provider 0 1 false).1 = .ok wAcc
    ∧ List.Perm (enqueued (engineStep wStore wBus 1 .accept 3 .provider 0 1 false).2.2)
        (enqueued wBus ++ [mkEvent .accept 3 wAcc 1]) := by
  have h := (claim_C5_commit_then_publish wStore wStoreAcc wBus 1 .accept 3
    .provider 0 1 wAcc (by rfl)).1 false
  exact ⟨h.2.1, h.1, h.2.2⟩

/-- C6: the single event a successful transition hands to the bus is
published on the topic matching the transition — one of exactly
`booking.pending`, `booking.accepted`, `booking.in_progress`,
`booking.completed`, `booking.cancelled` — and its payload is the full
new booking snapshot plus the transition and actor id. -/
theorem claim_C6_event_topic_payload
    (s s' : Store) (bus : BusState) (id : Nat) (t : Transition) (a : Nat)
    (r : Role) (v now : Nat) (pubOk : Bool) (b' : Booking)
    (h : applyTransition s id t a r v now = .ok (s', b')) :
    (engineStep s bus id t a r v now pubOk).2.2
      = publish bus (mkEvent t a b' now) pubOk
    ∧ (mkEvent t a b' now).topic = topicOf t
    ∧ topicOf t ∈ allTopics
    ∧ (mkEvent t a b' now).snapshot = b'
    ∧ (mkEvent t a b' now).transition = t
    ∧ (mkEvent t a b' now).actorId = a
    ∧ (mkEvent t a b' now).bookingId = b'.id := by
  refine ⟨by simp [engineStep, h], rfl, ?_, rfl, rfl, rfl, rfl⟩
  cases t <;> simp [topicOf, allTopics]

/-- Witness for C6 at the accept of the Pending fixture. -/
theorem claim_C6_witness :
    (engineStep wStore wBus 1 .accept 3 .provider 0 1 true).2.2
      = publish wBus (mkEvent .accept 3 wAcc 1) true
    ∧ (mkEvent .accept 3 wAcc 1).topic = "booking.accepted"
    ∧ "booking.accepted" ∈ allTopics := by
  have h := claim_C6_event_topic_payload wStore wStoreAcc wBus 1 .accept 3
    .provider 0 1 true wAcc (by rfl)
  exact ⟨h.1, h.2.1, h.2.2.1⟩

/-- Counterexample to C7 as stated: accept then cancel the fixture
booking through `applyTransition`; the reachable record has status
Cancelled with the accepted timestamp still set, so the claimed "iff"
fails. -/
theorem claim_C7_counterexample :
    applyTransition wStore 1 .accept 3 .provider 0 1 = .ok (wStoreAcc, wAcc)
    ∧ applyTransition wStoreAcc 1 .cancel 5 .requester 1 2
        = .ok (storePut wStoreAcc wAccCanc, wAccCanc)
    ∧ wAccCanc.status = .cancelled
    ∧ wAccCanc.acceptedAt = some 1
    ∧ ¬ tsAligned wAccCanc := by
  refine ⟨rfl, rfl, rfl, rfl, ?_⟩
  unfold tsAligned
  decide

/-- C7 (amended): at creation both timestamps are null; every successful
transition preserves the amended invariant — accepted set on reaching
Accepted and non-null from then on (also across a later cancellation),
null while Pending; completed set iff Completed — and each timestamp,
once set, is never overwritten. -/
theorem claim_C7_amended_timestamps
    (s s' : Store) (id : Nat) (t : Transition) (a : Nat) (r : Role)
    (v now : Nat) (b b' : Booking)
    (i rq pv sv sc : Nat) (addr : String) (pr n0 : Nat)
    (hb : storeGet s id = some b) (hinv : tsInvariant b)
    (h : applyTransition s id t a r v now = .ok (s', b')) :
    tsInvariant b'
    ∧ (∀ x, b.acceptedAt = some x → b'.acceptedAt = some x)
    ∧ (∀ x, b.completedAt = some x → b'.completedAt = some x)
    ∧ tsInvariant (createBooking i rq pv sv sc addr pr n0)
    ∧ (createBooking i rq pv sv sc addr pr n0).acceptedAt = none
    ∧ (createBooking i rq pv sv sc addr pr n0).completedAt = none := by
  have hcre : tsInvariant (createBooking i rq pv sv sc addr pr n0) := by
    simp [tsInvariant, createBooking]
  obtain ⟨hp, hv, target, ht, hb', hs'⟩ := applyTransition_ok_inv hb h
  obtain ⟨h1, h2, h3⟩ := hinv
  subst hb'
  have hcompNe : b.status ≠ .completed → b.completedAt = none := by
    intro hne
    by_contra hsome
    exact hne (h3.mp hsome)
  have main : tsInvariant (mutate t target now b)
      ∧ (∀ x, b.acceptedAt = some x → (mutate t target now b).acceptedAt = some x)
      ∧ (∀ x, b.completedAt = some x → (mutate t target now b).completedAt = some x) := by
    cases t with
    | accept =>
      cases hst : b.status <;> rw [hst] at ht <;>
        simp only [nextStatus, Option.some.injEq, reduceCtorEq] at ht
      subst ht
      have hcomp : b.completedAt = none := hcompNe (by simp [hst])
      refine ⟨?_, ?_, ?_⟩
      · simp [tsInvariant, mutate, hcomp]
      · intro x hx
        exact absurd hst (h2 (by simp [hx]))
      · intro x hx
        simp [mutate, hx]
    | start =>
      cases hst : b.status <;> rw [hst] at ht <;>
        simp only [nextStatus, Option.some.injEq, reduceCtorEq] at ht
      subst ht
      have hacc : b.acceptedAt ≠ none := h1 (Or.inl hst)
      have hcomp : b.completedAt = none := hcompNe (by simp [hst])
      refine ⟨?_, ?_, ?_⟩
      · simp [tsInvariant, mutate, hcomp, hacc]
      · intro x hx
        simp [mutate, hx]
      · intro x hx
        simp [mutate, hx]
    | complete =>
      cases hst : b.status <;> rw [hst] at ht <;>
        simp only [nextStatus, Option.some.injEq, reduceCtorEq] at ht
      subst ht
      have hacc : b.acceptedAt ≠ none := h1 (Or.inr (Or.inl hst))
      refine ⟨?_, ?_, ?_⟩
      · simp [tsInvariant, mutate, hacc]
      · intro x hx
        simp [mutate, hx]
      · intro x hx
        exact absurd (h3.mp (by simp [hx])) (by simp [hst])
    | cancel =>
      cases hst : b.status <;> rw [hst] at ht <;>
        simp only [nextStatus, Option.some.injEq, reduceCtorEq] at ht <;>
        subst ht <;>
        refine ⟨?_, ?_, ?_⟩ <;>
          simp [tsInvariant, mutate, hcompNe (by simp [hst])]
  exact ⟨main.1, main.2.1, main.2.2, hcre, rfl, rfl⟩

/-- Witness for C7's amended theorem: accepting the Pending fixture
preserves the amended invariant, and a fresh booking has both
timestamps null. -/
theorem claim_C7_witness :
    tsInvariant wAcc
    ∧ tsInvariant (createBooking 2 7 8 3 20 "Av. Italia 3000" 60 4)
    ∧ (createBooking 2 7 8 3 20 "Av. Italia 3000" 60 4).acceptedAt = none := by
  have h := claim_C7_amended_timestamps wStore wStoreAcc 1 .accept 3 .provider
    0 1 wBooking wAcc 2 7 8 3 20 "Av. Italia 3000" 60 4 (by rfl)
    (by unfold tsInvariant; decide) (by rfl)
  exact ⟨h.1, h.2.2.2.1, h.2.2.2.2.1⟩

/-- C8: `open` succeeds exactly when the booking's status, read fresh
from the store, is Accepted or InProgress and no session exists for the
booking id; a Pending, Completed or Cancelled booking yields
`Ineligible`, and an eligible booking with an existing session yields
`AlreadyOpen`; a successful open hands back an open session bound to the
booking id and the two participants. -/
theorem claim_C8_open_session
    (s : Store) (reg : Registry) (id rq pv now : Nat) (b : Booking)
    (hb : storeGet s id = some b) :
    ((b.status = .pending ∨ b.status = .completed ∨ b.status = .cancelled) →
      openSession s reg id rq pv now = .error .ineligible)
    ∧ ((b.status = .accepted ∨ b.status = .inProgress) →
        (∀ sess, sessionFor reg id = some sess →
          openSession s reg id rq pv now = .error .alreadyOpen)
        ∧ (sessionFor reg id = none →
            ∃ reg' sess, openSession s reg id rq pv now = .ok (reg', sess)
              ∧ sess.bookingId = id ∧ sess.requesterId = rq
              ∧ sess.providerId = pv ∧ sess.isOpen = true))
    ∧ (∀ reg' sess, openSession s reg id rq pv now = .ok (reg', sess) →
        (b.status = .accepted ∨ b.status = .inProgress)
        ∧ sessionFor reg id = none) := by
  refine ⟨?_, ?_, ?_⟩
  · intro hst
    have hel : eligibleStatus b.status = false := by
      rcases hst with h | h | h <;> simp [eligibleStatus, h]
    simp [openSession, hb, hel]
  · intro hst
    have hel : eligibleStatus b.status = true := (eligibleStatus_iff _).mpr hst
    constructor
    · intro sess hsess
      simp [openSession, hb, hel, hsess]
    · intro hnone
      have heq : openSession s reg id rq pv now
          = .ok (⟨id, rq, pv, true, now⟩ :: reg, ⟨id, rq, pv, true, now⟩) := by
        simp [openSession, hb, hel, hnone]
      exact ⟨_, _, heq, rfl, rfl, rfl, rfl⟩
  · intro reg' sess h
    cases hel : eligibleStatus b.status with
    | false => simp [openSession, hb, hel] at h
    | true =>
      cases hsf : sessionFor reg id with
      | some sess0 => simp [openSession, hb, hel, hsf] at h
      | none => exact ⟨(eligibleStatus_iff _).mp hel, rfl⟩

/-- Witness for C8: on the accepted fixture store, an empty registry
opens a session; a registry already holding one gets `AlreadyOpen`; the
Pending store gets `Ineligible`. -/
theorem claim_C8_witness :
    openSession wStore [] 1 5 3 4 = .error .ineligible
    ∧ openSession wStoreAcc wReg 1 5 3 4 = .error .alreadyOpen
    ∧ (∃ reg' sess, openSession wStoreAcc [] 1 5 3 4 = .ok (reg', sess)
        ∧ sess.bookingId = 1 ∧ sess.requesterId = 5
        ∧ sess.providerId = 3 ∧ sess.isOpen = true) := by
  have hpend := (claim_C8_open_session wStore [] 1 5 3 4 wBooking (by rfl)).1
    (Or.inl (by rfl))
  have hacc := (claim_C8_open_session wStoreAcc wReg 1 5 3 4 wAcc (by rfl)).2.1
    (Or.inl (by rfl))
  have hopen := (claim_C8_open_session wStoreAcc [] 1 5 3 4 wAcc (by rfl)).2.1
    (Or.inl (by rfl))
  exact ⟨hpend, hacc.1 _ (by rfl), hopen.2 (by rfl)⟩

/-- C9: with buffer bound `bound` and the counterpart disconnected, a
sender transmitting more than `bound` messages has exactly the most
recent `bound` of them delivered on reconnect, in send order, the oldest
ones dropped: the delivery is the send list with its first
`length - bound` entries removed. -/
theorem claim_C9_relay_bounded (bound : Nat) (msgs : List Nat)
    (h : bound < msgs.length) :
    deliverOnReconnect bound msgs = msgs.drop (msgs.length - bound)
    ∧ (deliverOnReconnect bound msgs).length = bound
    ∧ msgs.take (msgs.length - bound) ++ deliverOnReconnect bound msgs = msgs := by
  have key : deliverOnReconnect bound msgs = msgs.drop (msgs.length - bound) := by
    unfold deliverOnReconnect relayBuffer
    simpa using foldl_bufferPush bound msgs [] (by simp)
  refine ⟨key, ?_, ?_⟩
  · rw [key]
    simp [List.length_drop]
    omega
  · rw [key]
    exact List.take_append_drop _ _

/-- Witness for C9 at the spec's own scenario: bound 10, 15 messages —
the most recent 10 are delivered, the oldest 5 dropped. -/
theorem claim_C9_witness :
    deliverOnReconnect 10 [1, 2, 3, 4, 5, 6, 7, 8, 9, 10, 11, 12, 13, 14, 15]
      = [6, 7, 8, 9, 10, 11, 12, 13, 14, 15]
    ∧ (deliverOnReconnect 10
        [1, 2, 3, 4, 5, 6, 7, 8, 9, 10, 11, 12, 13, 14, 15]).length = 10 := by
  have h := claim_C9_relay_bounded 10
    [1, 2, 3, 4, 5, 6, 7, 8, 9, 10, 11, 12, 13, 14, 15] (by decide)
  exact ⟨h.1.trans (by decide), h.2.1⟩

/-- C10: the BEFORE UPDATE trigger `update_updated_at_column` overwrites
`updated_at` with the current time on every UPDATE of a `bookings`,
`users` or `services` row, whatever columns the SET clause touches —
in particular after any sequence of updates, `updated_at` carries the
time of the latest one. -/
theorem claim_C10_updated_at_trigger :
    (∀ (now : Int) (upd : BookingsRow → BookingsRow) (r : BookingsRow),
      (triggeredUpdateBookings now upd r).updated_at = now)
    ∧ (∀ (now : Int) (upd : UsersRow → UsersRow) (r : UsersRow),
      (triggeredUpdateUsers now upd r).updated_at = now)
    ∧ (∀ (now : Int) (upd : ServicesRow → ServicesRow) (r : ServicesRow),
      (triggeredUpdateServices now upd r).updated_at = now)
    ∧ (∀ (r : BookingsRow) (us : List (Int × (BookingsRow → BookingsRow)))
        (now : Int) (upd : BookingsRow → BookingsRow),
      (applyBookingUpdates r (us ++ [(now, upd)])).updated_at = now) := by
  refine ⟨fun _ _ _ => rfl, fun _ _ _ => rfl, fun _ _ _ => rfl, ?_⟩
  intro r us now upd
  rw [applyBookingUpdates_append]
  rfl

end FixItNow
